import Mathlib

/-
Verification of the fragment-cache extension (caching/ext.py) and of the
cache-aside invalidation engine it calls into, for django-cache-machine.

The file embeds the code of caching/ext.py directly.  The core module
caching.base that ext.py imports (cached, make_key, add_to_flush_list,
flush-list invalidation, the count-cache binding) is not part of the
source tree here, only its callers and tests are; those parts are modelled
from the specification, and each such definition says so in its doc
comment.
-/

set_option autoImplicit false

namespace CacheMachine

/-- Provenance of a value returned by the cache-aside executor: freshly
computed, or served from cache (spec section 3, CacheEntry). -/
inductive Provenance where
  | computed
  | from_cache
  deriving DecidableEq, Repr

/-- Lookup in an association list with string keys, first match wins. -/
def alookup {α : Type} : List (String × α) → String → Option α
  | [], _ => none
  | (k, v) :: rest, q => if q = k then some v else alookup rest q

/-- Remove every binding of a key from an association list. -/
def adelete {α : Type} : List (String × α) → String → List (String × α)
  | [], _ => []
  | (k, v) :: rest, q => if k = q then adelete rest q else (k, v) :: adelete rest q

/-- Cache backend state: the key-value store, each entry keeping the timeout
it was stored with, and the flush lists indexed by flush key (spec
sections 3 and 4.2). -/
structure CacheState (V : Type) where
  store : List (String × (V × Option Nat))
  flushLists : List (String × List String)
  deriving Repr

/-- Backend get: the stored value at a key, if present. -/
def cacheGet {V : Type} (st : CacheState V) (k : String) : Option V :=
  (alookup st.store k).map Prod.fst

/-- Backend get together with the timeout the entry was stored with. -/
def cacheGetEntry {V : Type} (st : CacheState V) (k : String) : Option (V × Option Nat) :=
  alookup st.store k

/-- Backend set with timeout: replaces any previous binding of the key. -/
def cacheSet {V : Type} (st : CacheState V) (k : String) (v : V) (timeout : Option Nat) :
    CacheState V :=
  { st with store := (k, (v, timeout)) :: adelete st.store k }

/-- Backend delete, idempotent on absent keys. -/
def cacheDelete {V : Type} (st : CacheState V) (k : String) : CacheState V :=
  { st with store := adelete st.store k }

/-- The flush list stored under a flush key, defaulting to empty. -/
def getFlushList {V : Type} (st : CacheState V) (fk : String) : List String :=
  (alookup st.flushLists fk).getD []

/-- Delete the storage entry of a flush list. -/
def flushDelete {V : Type} (st : CacheState V) (fk : String) : CacheState V :=
  { st with flushLists := adelete st.flushLists fk }

/-- Modelled from the spec: caching.base.make_key is not under src.  Spec
section 4.1 requires a deterministic collision-safe key transform used
identically wherever keys are computed, so it is modelled as the identity
on key strings, which is deterministic and injective. -/
def make_key (k : String) : String := k

/-- Modelled from the spec: caching.base.flush_key is not under src.  Spec
section 3 derives the flush key of an entity key by a fixed one-directional
prefix transform. -/
def flush_key (k : String) : String := "flush:" ++ k

/-- Modelled from the spec: caching.base.add_to_flush_list is not under src.
Spec section 4.3 register_dependency: for each given flush-list key, read
its flush list, default empty, add the dependent cache key, write it back. -/
def add_to_flush_list {V : Type} (keys : List String) (dependent : String)
    (st : CacheState V) : CacheState V :=
  keys.foldl
    (fun acc fk =>
      { acc with
        flushLists := (fk, getFlushList acc fk ++ [dependent]) :: adelete acc.flushLists fk })
    st

/-- Storage key used by the cache-aside executor for a caller-visible key.
The comment at ext.py line 66 records that the flush registration there
matches the key made inside cached, namely make_key of the caller key
behind an f marker. -/
def cachedStorageKey (key : String) : String := make_key ("f:" ++ key)

/-- Modelled from the spec: caching.base.cached is not under src.  Spec
section 4.4 gives the cache-aside executor: debug bypass calling the
producer directly, get on the storage key, on hit return the stored value
as from_cache, on miss call the producer, set with the given timeout and
return the value as computed. -/
def cached {V : Type} (debug : Bool) (producer : Unit → V) (key : String)
    (timeout : Option Nat) (st : CacheState V) : V × Provenance × CacheState V :=
  if debug then (producer (), Provenance.computed, st)
  else
    match cacheGet st (cachedStorageKey key) with
    | some v => (v, Provenance.from_cache, st)
    | none =>
      let v := producer ()
      (v, Provenance.computed, cacheSet st (cachedStorageKey key) v timeout)

/-- Duck-typed dependency object passed to the cache tag.  A query_key
method, a cache_key attribute and a flush_key method may each be present or
absent; ext.py lines 60 to 68 probe them at run time.  A method taking no
argument is modelled by its return value. -/
structure DepObj where
  query_key : Option String
  cache_key : Option String
  flush_key : Option String
  deriving DecidableEq, Repr

/-- Failure modes of the duck-typed attribute accesses in _cache_support:
a missing cache_key attribute, read after query_key was found absent, or a
missing flush_key method. -/
inductive FragErr where
  | noCacheKey
  | noFlushKey
  deriving DecidableEq, Repr

/-- Embedding of FragmentCacheExtension.preprocess, ext.py line 27: the
stored template name is the filename when that is truthy, otherwise the
load name. -/
def templateName (filename : Option String) (name : String) : String :=
  match filename with
  | some f => if f = "" then name else f
  | none => name

/-- Embedding of the name built in FragmentCacheExtension.parse, ext.py
line 38: the template name and the line number of the cache tag token,
joined by a plus sign. -/
def callSiteName (tname : String) (lineno : Nat) : String :=
  tname ++ "+" ++ toString lineno

/-- Embedding of ext.py lines 60 to 63: obj_key is the result of query_key
when that attribute exists, and otherwise the cache_key attribute, whose
absence raises. -/
def depObjKey (obj : DepObj) : Except FragErr String :=
  match obj.query_key with
  | some qk => Except.ok qk
  | none =>
    match obj.cache_key with
    | some ck => Except.ok ck
    | none => Except.error FragErr.noCacheKey

/-- Embedding of ext.py line 65: the fragment cache key string. -/
def fragmentKey (name : String) (objKey : String) : String :=
  "fragment:" ++ name ++ ":" ++ objKey

/-- Embedding of FragmentCacheExtension._cache_support, ext.py lines 55
to 69: debug bypass returning the rendered block directly, duck-typed
object key, fragment key, flush registration of the storage key against the
flush key of the object, then the cache-aside call. -/
def cacheSupport (debug : Bool) (name : String) (obj : DepObj) (timeout : Option Nat)
    (caller : Unit → String) (st : CacheState String) :
    Except FragErr (String × Provenance × CacheState String) :=
  if debug then Except.ok (caller (), Provenance.computed, st)
  else
    match depObjKey obj with
    | Except.error e => Except.error e
    | Except.ok objKey =>
      let key := fragmentKey name objKey
      let flush := make_key ("f:" ++ key)
      match obj.flush_key with
      | none => Except.error FragErr.noFlushKey
      | some fk =>
        let st1 := add_to_flush_list [fk] flush st
        Except.ok (cached debug caller key timeout st1)

/-- The full key pipeline of the extension for one call site, composing the
parse-time name with the run-time object key of _cache_support. -/
def fragmentCallKey (tname : String) (lineno : Nat) (obj : DepObj) : Except FragErr String :=
  (depObjKey obj).map (fun k => fragmentKey (callSiteName tname lineno) k)

/-- A template call site of the cache tag: the template, as filename or
load name, the line the tag starts on, and the column position within that
line.  The parse step of ext.py reads only the line number of the tag
token, never the column. -/
structure CallSite where
  filename : Option String
  name : String
  lineno : Nat
  colno : Nat
  deriving DecidableEq, Repr

/-- The call-site discriminant the extension actually derives: the stored
template name plus the line number. -/
def callSiteKeyName (cs : CallSite) : String :=
  callSiteName (templateName cs.filename cs.name) cs.lineno

/-- Delete a list of cache keys from the store. -/
def deleteKeys {V : Type} (st : CacheState V) (ks : List String) : CacheState V :=
  ks.foldl cacheDelete st

/-- Modelled from the spec: the flush-list manager invalidate of
caching.base is not under src.  Spec section 4.3: for an entity key, read
its flush list, delete every cache key it contains, delete the direct cache
entry of the entity itself, then delete the flush-list entry. -/
def invalidateOne {V : Type} (st : CacheState V) (ek : String) : CacheState V :=
  let members := getFlushList st (flush_key ek)
  let st1 := deleteKeys st members
  let st2 := cacheDelete st1 ek
  flushDelete st2 (flush_key ek)

/-- Invalidate a list of entity keys in order. -/
def invalidate {V : Type} (eks : List String) (st : CacheState V) : CacheState V :=
  eks.foldl invalidateOne st

/-- Modelled from the spec: the declared foreign-key relations supplied by
the ORM collaborator, spec section 6, as directed edges between entity
keys, each edge pointing from the referencing entity to the referenced
one. -/
def relatedBoth (edges : List (String × String)) (e : String) : List String :=
  (edges.filter (fun p => p.1 = e)).map Prod.snd ++
    (edges.filter (fun p => p.2 = e)).map Prod.fst

/-- Modelled from the spec: the cascade policy of spec section 4.3, the set
of entity keys to invalidate on a write is the written entity itself
together with every entity related to it by a declared relation in either
direction. -/
def invalidationTargets (edges : List (String × String)) (e : String) : List String :=
  e :: relatedBoth edges e

/-- Modelled from the spec: the write hook of the entity cache binding,
spec section 4.5, invalidating the written entity and its related
entities. -/
def writeEntity {V : Type} (edges : List (String × String)) (e : String)
    (st : CacheState V) : CacheState V :=
  invalidate (invalidationTargets edges e) st

/-- Modelled from the spec: the read path of the entity cache binding, spec
section 4.5, a cache-aside read of the entity under its own object key,
registering the key in the flush list of the entity on a miss. -/
def readEntity {V : Type} (debug : Bool) (e : String) (fetch : Unit → V)
    (st : CacheState V) : V × Provenance × CacheState V :=
  if debug then (fetch (), Provenance.computed, st)
  else
    match cacheGet st e with
    | some v => (v, Provenance.from_cache, st)
    | none =>
      let v := fetch ()
      let st1 := cacheSet st e v none
      (v, Provenance.computed, add_to_flush_list [flush_key e] e st1)

/-- Modelled from the spec: the count cache binding of caching.base is not
under src.  Spec section 4.6 and the tests at test_cache.py lines 107
to 125: when the configured count timeout is unset the cache-aside executor
is bypassed entirely and the count is recomputed, otherwise the count runs
through cached with exactly the configured timeout. -/
def countQuery (debug : Bool) (countTimeout : Option Nat) (qkey : String)
    (compute : Unit → Nat) (st : CacheState Nat) : Nat × Provenance × CacheState Nat :=
  match countTimeout with
  | none => (compute (), Provenance.computed, st)
  | some t => cached debug compute qkey (some t) st

/-- The fragment cache key exactly as the specification words it: the
string fragment: followed by the template filename or name, a plus sign,
the line number of the cache tag, a colon, and the dependency key of the
object, which comes from query_key when present and from cache_key
otherwise.  This definition follows the words of the specification and is
compared against the key pipeline embedded from the code. -/
def claimedFragmentKey (filename : Option String) (nm : String) (lineno : Nat)
    (obj : DepObj) : Except FragErr String :=
  let loc := match filename with
    | some f => if f = "" then nm else f
    | none => nm
  match obj.query_key with
  | some qk => Except.ok ("fragment:" ++ loc ++ "+" ++ toString lineno ++ ":" ++ qk)
  | none =>
    match obj.cache_key with
    | some ck => Except.ok ("fragment:" ++ loc ++ "+" ++ toString lineno ++ ":" ++ ck)
    | none => Except.error FragErr.noCacheKey

/-! Helper lemmas about decimal rendering of naturals, used for the
injectivity analysis of the call-site discriminant. -/

/-- Digit characters are injective below the base ten. -/
lemma digitChar_inj_lt : ∀ a < 10, ∀ b < 10, Nat.digitChar a = Nat.digitChar b → a = b := by
  decide

/-- Digit characters below ten are never the plus sign. -/
lemma digitChar_ne_plus : ∀ a < 10, Nat.digitChar a ≠ '+' := by decide

/-- The fueled digit renderer agrees with the digit list of the number. -/
lemma toDigitsCore_eq (fuel : Nat) : ∀ (n : Nat) (acc : List Char), n ≠ 0 → n < fuel →
    Nat.toDigitsCore 10 fuel n acc = ((Nat.digits 10 n).map Nat.digitChar).reverse ++ acc := by
  induction fuel with
  | zero => intro n acc h hf; omega
  | succ f ih =>
    intro n acc h hf
    rw [Nat.toDigitsCore]
    have hdig : Nat.digits 10 n = n % 10 :: Nat.digits 10 (n / 10) :=
      Nat.digits_def' (by norm_num) (Nat.pos_of_ne_zero h)
    by_cases hq : n / 10 = 0
    · simp [hq, hdig]
    · have hlt : n / 10 < f := by
        have h1 : n / 10 < n := Nat.div_lt_self (Nat.pos_of_ne_zero h) (by norm_num)
        omega
      simp only [hq, if_false]
      rw [ih (n / 10) _ hq hlt, hdig]
      simp [List.append_assoc]

/-- Characters of the decimal rendering of a positive number. -/
lemma repr_data (n : Nat) (h : n ≠ 0) :
    (Nat.repr n).data = ((Nat.digits 10 n).map Nat.digitChar).reverse := by
  show (Nat.toDigits 10 n).asString.data = _
  rw [Nat.toDigits, toDigitsCore_eq (n + 1) n [] h (by omega)]
  simp [List.asString]

/-- The decimal rendering of zero. -/
lemma repr_zero_data : (Nat.repr 0).data = ['0'] := by decide

/-- The decimal rendering of a natural number never contains a plus sign. -/
lemma mem_repr_ne_plus (n : Nat) : '+' ∉ (Nat.repr n).data := by
  by_cases h : n = 0
  · subst h; rw [repr_zero_data]; decide
  · rw [repr_data n h]
    intro hm
    rw [List.mem_reverse, List.mem_map] at hm
    obtain ⟨d, hd, hc⟩ := hm
    exact digitChar_ne_plus d (Nat.digits_lt_base (by norm_num) hd) hc

/-- Mapping digitChar over lists of digits below ten is injective. -/
lemma map_digitChar_inj : ∀ (xs ys : List Nat), (∀ x ∈ xs, x < 10) → (∀ y ∈ ys, y < 10) →
    xs.map Nat.digitChar = ys.map Nat.digitChar → xs = ys := by
  intro xs
  induction xs with
  | nil => intro ys _ _ h; cases ys <;> simp_all
  | cons a as ih =>
    intro ys hx hy h
    cases ys with
    | nil => simp_all
    | cons b bs =>
      simp only [List.map_cons, List.cons.injEq] at h
      have ha : a = b := digitChar_inj_lt a (hx a (by simp)) b (hy b (by simp)) h.1
      have hb : as = bs :=
        ih bs (fun x hx2 => hx x (by simp [hx2])) (fun y hy2 => hy y (by simp [hy2])) h.2
      simp [ha, hb]

/-- Decimal rendering of naturals is injective. -/
lemma repr_inj (m n : Nat) (h : Nat.repr m = Nat.repr n) : m = n := by
  have hd : (Nat.repr m).data = (Nat.repr n).data := congrArg String.data h
  by_cases hm : m = 0 <;> by_cases hn : n = 0
  · omega
  · exfalso
    subst hm
    rw [repr_zero_data, repr_data n hn] at hd
    have hmap : (Nat.digits 10 n).map Nat.digitChar = ['0'] := by
      have := congrArg List.reverse hd
      simpa using this.symm
    have hdig : Nat.digits 10 n = [0] := by
      apply map_digitChar_inj _ [0] (fun x hx => Nat.digits_lt_base (by norm_num) hx) (by decide)
      simpa using hmap
    have hofd := Nat.ofDigits_digits 10 n
    rw [hdig] at hofd
    simp [Nat.ofDigits] at hofd
    omega
  · exfalso
    subst hn
    rw [repr_zero_data, repr_data m hm] at hd
    have hmap : (Nat.digits 10 m).map Nat.digitChar = ['0'] := by
      have := congrArg List.reverse hd
      simpa using this
    have hdig : Nat.digits 10 m = [0] := by
      apply map_digitChar_inj _ [0] (fun x hx => Nat.digits_lt_base (by norm_num) hx) (by decide)
      simpa using hmap
    have hofd := Nat.ofDigits_digits 10 m
    rw [hdig] at hofd
    simp [Nat.ofDigits] at hofd
    omega
  · rw [repr_data m hm, repr_data n hn] at hd
    have hmap := List.reverse_injective hd
    have hdig := map_digitChar_inj _ _ (fun x hx => Nat.digits_lt_base (by norm_num) hx)
      (fun y hy => Nat.digits_lt_base (by norm_num) hy) hmap
    have h1 := Nat.ofDigits_digits 10 m
    have h2 := Nat.ofDigits_digits 10 n
    rw [hdig] at h1
    omega

/-- Splitting at a separator absent from both tails is unambiguous. -/
lemma append_sep_inj (c : Char) : ∀ (xs xs' ys ys' : List Char), c ∉ ys → c ∉ ys' →
    xs ++ c :: ys = xs' ++ c :: ys' → xs = xs' ∧ ys = ys' := by
  intro xs
  induction xs with
  | nil =>
    intro xs' ys ys' hy hy' h
    cases xs' with
    | nil => simp_all
    | cons b bs =>
      simp only [List.nil_append, List.cons_append, List.cons.injEq] at h
      exact absurd (h.2 ▸ List.mem_append_right bs (h.1 ▸ List.mem_cons_self c ys')) hy
  | cons a as ih =>
    intro xs' ys ys' hy hy' h
    cases xs' with
    | nil =>
      simp only [List.nil_append, List.cons_append, List.cons.injEq] at h
      exact absurd (h.2.symm ▸ List.mem_append_right as (h.1 ▸ List.mem_cons_self c ys)) hy'
    | cons b bs =>
      simp only [List.cons_append, List.cons.injEq] at h
      obtain ⟨rfl, h2⟩ := h
      obtain ⟨h3, h4⟩ := ih bs ys ys' hy hy' h2
      simp [h3, h4]

/-- Left cancellation for string append. -/
lemma str_append_left_cancel (a b c : String) (h : a ++ b = a ++ c) : b = c := by
  have hd : a.data ++ b.data = a.data ++ c.data := by
    have := congrArg String.data h
    simpa [String.data_append] using this
  exact String.ext (List.append_cancel_left hd)

/-- Right cancellation for string append. -/
lemma str_append_right_cancel (a b c : String) (h : a ++ c = b ++ c) : a = b := by
  have hd : a.data ++ c.data = b.data ++ c.data := by
    have := congrArg String.data h
    simpa [String.data_append] using this
  exact String.ext (List.append_cancel_right hd)

/-- The name built at parse time determines the template name and the line
number of the tag: the plus separator is unambiguous because decimal digits
never contain a plus sign. -/
lemma callSiteName_inj (t1 t2 : String) (l1 l2 : Nat)
    (h : callSiteName t1 l1 = callSiteName t2 l2) : t1 = t2 ∧ l1 = l2 := by
  have hd : t1.data ++ '+' :: (Nat.repr l1).data = t2.data ++ '+' :: (Nat.repr l2).data := by
    have := congrArg String.data h
    simpa [callSiteName, String.data_append, List.append_assoc] using this
  obtain ⟨h1, h2⟩ := append_sep_inj '+' t1.data t2.data (Nat.repr l1).data (Nat.repr l2).data
    (mem_repr_ne_plus l1) (mem_repr_ne_plus l2) hd
  exact ⟨String.ext h1, repr_inj l1 l2 (String.ext h2)⟩

/-- Flush keys of distinct entity keys are distinct. -/
lemma flush_key_inj (a b : String) (h : flush_key a = flush_key b) : a = b :=
  str_append_left_cancel "flush:" a b h

/-! Helper lemmas about the cache backend state. -/

/-- Lookup after a full delete of the same key. -/
lemma alookup_adelete_self {α : Type} : ∀ (l : List (String × α)) (k : String),
    alookup (adelete l k) k = none := by
  intro l k
  induction l with
  | nil => rfl
  | cons p rest ih =>
    obtain ⟨k1, v1⟩ := p
    by_cases h : k1 = k
    · simpa [adelete, h] using ih
    · simp [adelete, alookup, h, Ne.symm h, ih]

/-- Lookup of a different key commutes with delete. -/
lemma alookup_adelete_ne {α : Type} : ∀ (l : List (String × α)) (k q : String), q ≠ k →
    alookup (adelete l k) q = alookup l q := by
  intro l k q hne
  induction l with
  | nil => rfl
  | cons p rest ih =>
    obtain ⟨k1, v1⟩ := p
    by_cases h : k1 = k
    · subst h
      simp [adelete, alookup, hne, ih]
    · by_cases h2 : q = k1 <;> simp [adelete, alookup, h, h2, ih]

/-- Get after set of the same key. -/
lemma cacheGet_cacheSet_self {V : Type} (st : CacheState V) (k : String) (v : V)
    (t : Option Nat) : cacheGet (cacheSet st k v t) k = some v := by
  simp [cacheGet, cacheSet, alookup]

/-- Full entry after set of the same key. -/
lemma cacheGetEntry_cacheSet_self {V : Type} (st : CacheState V) (k : String) (v : V)
    (t : Option Nat) : cacheGetEntry (cacheSet st k v t) k = some (v, t) := by
  simp [cacheGetEntry, cacheSet, alookup]

/-- Get of the deleted key returns nothing. -/
lemma cacheGet_cacheDelete_self {V : Type} (st : CacheState V) (k : String) :
    cacheGet (cacheDelete st k) k = none := by
  simp [cacheGet, cacheDelete, alookup_adelete_self]

/-- Delete never makes an absent key present. -/
lemma cacheGet_cacheDelete_of_none {V : Type} (st : CacheState V) (k q : String)
    (h : cacheGet st q = none) : cacheGet (cacheDelete st k) q = none := by
  by_cases hq : q = k
  · subst hq; exact cacheGet_cacheDelete_self st q
  · simpa [cacheGet, cacheDelete, alookup_adelete_ne st.store k q hq] using h

/-- Deleting a list of keys never makes an absent key present. -/
lemma deleteKeys_get_of_none {V : Type} : ∀ (ks : List String) (st : CacheState V) (q : String),
    cacheGet st q = none → cacheGet (deleteKeys st ks) q = none := by
  intro ks
  induction ks with
  | nil => intro st q h; exact h
  | cons x rest ih =>
    intro st q h
    exact ih (cacheDelete st x) q (cacheGet_cacheDelete_of_none st x q h)

/-- Every member of a deleted key list is absent afterwards. -/
lemma deleteKeys_get_of_mem {V : Type} : ∀ (ks : List String) (st : CacheState V) (q : String),
    q ∈ ks → cacheGet (deleteKeys st ks) q = none := by
  intro ks
  induction ks with
  | nil => intro st q h; cases h
  | cons x rest ih =>
    intro st q h
    rcases List.mem_cons.mp h with h1 | h2
    · subst h1
      exact deleteKeys_get_of_none rest (cacheDelete st q) q (cacheGet_cacheDelete_self st q)
    · exact ih (cacheDelete st x) q h2

/-- Flush-list registration leaves the value store untouched. -/
lemma add_to_flush_list_store {V : Type} : ∀ (ks : List String) (d : String) (st : CacheState V),
    (add_to_flush_list ks d st).store = st.store := by
  intro ks
  induction ks with
  | nil => intro d st; rfl
  | cons x rest ih =>
    intro d st
    simpa [add_to_flush_list] using ih d _

/-- Flush-list registration does not change cache reads. -/
lemma cacheGet_add_to_flush_list {V : Type} (ks : List String) (d : String) (st : CacheState V)
    (q : String) : cacheGet (add_to_flush_list ks d st) q = cacheGet st q := by
  simp [cacheGet, add_to_flush_list_store]

/-- Registering a dependent into one flush list makes it a member. -/
lemma getFlushList_add_self {V : Type} (fk d : String) (st : CacheState V) :
    d ∈ getFlushList (add_to_flush_list [fk] d st) fk := by
  simp [add_to_flush_list, getFlushList, alookup]

/-- The cache-aside executor leaves the flush lists untouched. -/
lemma cached_flushLists {V : Type} (debug : Bool) (producer : Unit → V) (key : String)
    (t : Option Nat) (st : CacheState V) :
    (cached debug producer key t st).2.2.flushLists = st.flushLists := by
  unfold cached
  by_cases hd : debug
  · simp [hd]
  · simp only [hd, if_false]
    cases h : cacheGet st (cachedStorageKey key) <;> simp [cacheSet]

/-- After a run of the cache-aside executor outside debug mode, the returned
value sits in the store under the storage key. -/
lemma cached_get_result {V : Type} (producer : Unit → V) (key : String) (t : Option Nat)
    (st : CacheState V) (v : V) (p : Provenance) (st1 : CacheState V)
    (h : cached false producer key t st = (v, p, st1)) :
    cacheGet st1 (cachedStorageKey key) = some v := by
  unfold cached at h
  simp only [Bool.false_eq_true, if_false] at h
  cases hg : cacheGet st (cachedStorageKey key) with
  | some w =>
    rw [hg] at h
    obtain ⟨rfl, _, rfl⟩ := Prod.mk.injEq .. ▸ h
    · simpa using hg
  | none =>
    rw [hg] at h
    simp only [Prod.mk.injEq] at h
    obtain ⟨rfl, -, rfl⟩ := h
    exact cacheGet_cacheSet_self st (cachedStorageKey key) _ t

/-- One entity invalidation removes every member of the flush list of that
entity from the store. -/
lemma invalidateOne_kills_member {V : Type} (st : CacheState V) (e k : String)
    (h : k ∈ getFlushList st (flush_key e)) : cacheGet (invalidateOne st e) k = none := by
  unfold invalidateOne
  have h1 : cacheGet (deleteKeys st (getFlushList st (flush_key e))) k = none :=
    deleteKeys_get_of_mem _ st k h
  have h2 := cacheGet_cacheDelete_of_none (deleteKeys st (getFlushList st (flush_key e))) e k h1
  simpa [flushDelete, cacheGet] using h2

/-- One entity invalidation removes the direct cache entry of the entity. -/
lemma invalidateOne_get_self {V : Type} (st : CacheState V) (e : String) :
    cacheGet (invalidateOne st e) e = none := by
  unfold invalidateOne
  have h := cacheGet_cacheDelete_self (deleteKeys st (getFlushList st (flush_key e))) e
  simpa [flushDelete, cacheGet] using h

/-- One entity invalidation never makes an absent key present. -/
lemma invalidateOne_get_of_none {V : Type} (st : CacheState V) (e k : String)
    (h : cacheGet st k = none) : cacheGet (invalidateOne st e) k = none := by
  unfold invalidateOne
  have h1 := deleteKeys_get_of_none (getFlushList st (flush_key e)) st k h
  have h2 := cacheGet_cacheDelete_of_none _ e k h1
  simpa [flushDelete, cacheGet] using h2

/-- Invalidating one entity leaves the flush lists of other entities alone. -/
lemma getFlushList_invalidateOne_ne {V : Type} (st : CacheState V) (e e2 : String)
    (h : e ≠ e2) : getFlushList (invalidateOne st e2) (flush_key e) = getFlushList st (flush_key e) := by
  have hne : flush_key e ≠ flush_key e2 := fun hc => h (flush_key_inj e e2 hc)
  have hfold : ∀ (ks : List String) (st0 : CacheState V),
      (ks.foldl cacheDelete st0).flushLists = st0.flushLists := by
    intro ks
    induction ks with
    | nil => intro st0; rfl
    | cons x rest ih => intro st0; simpa [cacheDelete] using ih (cacheDelete st0 x)
  unfold invalidateOne flushDelete getFlushList
  rw [alookup_adelete_ne _ _ _ hne]
  simp [cacheDelete, deleteKeys, hfold]

/-- Invalidating a list of entities never makes an absent key present. -/
lemma invalidate_get_of_none {V : Type} : ∀ (eks : List String) (st : CacheState V) (k : String),
    cacheGet st k = none → cacheGet (invalidate eks st) k = none := by
  intro eks
  induction eks with
  | nil => intro st k h; exact h
  | cons e rest ih =>
    intro st k h
    exact ih (invalidateOne st e) k (invalidateOne_get_of_none st e k h)

/-- Invalidating a list of entities removes every store entry registered in
the flush list of any member. -/
lemma invalidate_kills {V : Type} : ∀ (eks : List String) (st : CacheState V) (e k : String),
    e ∈ eks → k ∈ getFlushList st (flush_key e) → cacheGet (invalidate eks st) k = none := by
  intro eks
  induction eks with
  | nil => intro st e k h; cases h
  | cons e2 rest ih =>
    intro st e k hmem hfl
    by_cases he : e = e2
    · subst he
      exact invalidate_get_of_none rest (invalidateOne st e) k (invalidateOne_kills_member st e k hfl)
    · rcases List.mem_cons.mp hmem with h1 | h2
      · exact absurd h1 he
      · exact ih (invalidateOne st e2) e k h2
          (by rw [getFlushList_invalidateOne_ne st e e2 he]; exact hfl)

/-- Membership in the related set along declared relations. -/
lemma mem_relatedBoth (edges : List (String × String)) (E e : String) :
    e ∈ relatedBoth edges E ↔ (E, e) ∈ edges ∨ (e, E) ∈ edges := by
  unfold relatedBoth
  simp only [List.mem_append, List.mem_map, List.mem_filter, decide_eq_true_eq]
  constructor
  · rintro (⟨⟨a, b⟩, ⟨hp, h1⟩, h2⟩ | ⟨⟨a, b⟩, ⟨hp, h1⟩, h2⟩)
    · left
      simp only at h1 h2
      subst h1; subst h2
      exact hp
    · right
      simp only at h1 h2
      subst h1; subst h2
      exact hp
  · rintro (h | h)
    · exact Or.inl ⟨(E, e), ⟨h, rfl⟩, rfl⟩
    · exact Or.inr ⟨(e, E), ⟨h, rfl⟩, rfl⟩

/-- Membership in the invalidation target set of a write. -/
lemma mem_invalidationTargets (edges : List (String × String)) (E e : String) :
    e ∈ invalidationTargets edges E ↔ e = E ∨ (E, e) ∈ edges ∨ (e, E) ∈ edges := by
  unfold invalidationTargets
  rw [List.mem_cons, mem_relatedBoth]

/-! Claim theorems. -/

/-- Claim C3: for every fragment-cache invocation with a dependency object,
the cache key for the rendered block equals the string fragment: plus the
template filename or name, plus sign, the line number of the cache tag,
colon, and the dependency key of the object, which is query_key when the
object has one and cache_key otherwise.  The key pipeline embedded from the
code coincides with the formula worded by the specification. -/
theorem fragment_key_formula (fn : Option String) (nm : String) (lineno : Nat) (obj : DepObj) :
    fragmentCallKey (templateName fn nm) lineno obj = claimedFragmentKey fn nm lineno obj := by
  unfold fragmentCallKey claimedFragmentKey depObjKey fragmentKey callSiteName templateName
  cases obj.query_key <;> cases obj.cache_key <;>
    simp [Except.map, String.append_assoc]

/-- Claim C6: with the process-wide debug flag set, every fragment-cache
invocation returns the output of the rendered block directly and the cache
state is completely untouched: no get, no set and no flush-list
registration happen. -/
theorem debug_bypasses_cache (nm : String) (obj : DepObj) (timeout : Option Nat)
    (caller : Unit → String) (st : CacheState String) :
    cacheSupport true nm obj timeout caller st = Except.ok (caller (), Provenance.computed, st) :=
  rfl

/-- Claim C9: in fragment dependency-key resolution the query_key method
takes precedence; whenever the object has a query_key, the dependency key
is its result, whatever the cache_key attribute holds. -/
theorem query_key_precedence (obj : DepObj) (qk : String) (h : obj.query_key = some qk) :
    depObjKey obj = Except.ok qk := by
  unfold depObjKey
  rw [h]

/-- Witness for claim C9 at an object carrying both attributes. -/
theorem query_key_precedence_witness :
    depObjKey (DepObj.mk (some "qkey") (some "ckey") (some "fkey")) = Except.ok "qkey" :=
  query_key_precedence (DepObj.mk (some "qkey") (some "ckey") (some "fkey")) "qkey" rfl

/-- Claim C10: on every fragment-cache invocation with the debug flag off
and a resolvable dependency object, the flush-list registration is
performed before the cache is consulted: the invocation equals the
cache-aside executor run on the state that already carries the
registration, the storage key of the fragment is a member of the flush
list of the object in that state, and the cache-aside executor never
changes flush lists, so the registration stands on hits as well as on
misses. -/
theorem flush_registration_before_cache (nm : String) (obj : DepObj) (timeout : Option Nat)
    (caller : Unit → String) (st : CacheState String) (objKey fk : String)
    (h1 : depObjKey obj = Except.ok objKey) (h2 : obj.flush_key = some fk) :
    cacheSupport false nm obj timeout caller st =
      Except.ok (cached false caller (fragmentKey nm objKey) timeout
        (add_to_flush_list [fk] (cachedStorageKey (fragmentKey nm objKey)) st)) ∧
    cachedStorageKey (fragmentKey nm objKey) ∈
      getFlushList (add_to_flush_list [fk] (cachedStorageKey (fragmentKey nm objKey)) st) fk ∧
    (cached false caller (fragmentKey nm objKey) timeout
        (add_to_flush_list [fk] (cachedStorageKey (fragmentKey nm objKey)) st)).2.2.flushLists =
      (add_to_flush_list [fk] (cachedStorageKey (fragmentKey nm objKey)) st).flushLists := by
  refine ⟨?_, getFlushList_add_self fk _ st, cached_flushLists false caller _ timeout _⟩
  simp [cacheSupport, h1, h2, cachedStorageKey]

/-- Witness for claim C10 at a concrete invocation from the empty state. -/
theorem flush_registration_before_cache_witness :
    cacheSupport false "t+1" (DepObj.mk (some "q") none (some "fl")) none (fun _ => "out")
        (CacheState.mk [] []) =
      Except.ok (cached false (fun _ => "out") (fragmentKey "t+1" "q") none
        (add_to_flush_list ["fl"] (cachedStorageKey (fragmentKey "t+1" "q"))
          (CacheState.mk [] []))) ∧
    cachedStorageKey (fragmentKey "t+1" "q") ∈
      getFlushList (add_to_flush_list ["fl"] (cachedStorageKey (fragmentKey "t+1" "q"))
        (CacheState.mk [] [] : CacheState String)) "fl" ∧
    (cached false (fun _ => "out") (fragmentKey "t+1" "q") none
        (add_to_flush_list ["fl"] (cachedStorageKey (fragmentKey "t+1" "q"))
          (CacheState.mk [] []))).2.2.flushLists =
      (add_to_flush_list ["fl"] (cachedStorageKey (fragmentKey "t+1" "q"))
        (CacheState.mk [] [] : CacheState String)).flushLists :=
  flush_registration_before_cache "t+1" (DepObj.mk (some "q") none (some "fl")) none
    (fun _ => "out") (CacheState.mk [] []) "q" "fl" rfl rfl

/-- Counterexample for claim C5: a dependency object exposing only a
query_key method, run outside debug mode, makes the fragment-cache call
fail with a missing flush_key, so query_key alone does not satisfy the
interface of the non-debug path. -/
theorem query_key_only_fails_flush :
    cacheSupport false "t+1" (DepObj.mk (some "q") none none) none (fun _ => "out")
      (CacheState.mk [] []) = Except.error FragErr.noFlushKey := rfl

/-- Claim C5 amended: a dependency object exposing a query_key method
satisfies the fragment-cache interface without any cache_key attribute,
but the non-debug path additionally requires a flush_key method, which is
called unconditionally for the flush-list registration; with query_key and
flush_key present the call succeeds. -/
theorem query_key_with_flush_key_suffices (nm : String) (obj : DepObj) (timeout : Option Nat)
    (caller : Unit → String) (st : CacheState String) (qk fk : String)
    (h1 : obj.query_key = some qk) (h2 : obj.flush_key = some fk) :
    ∃ r, cacheSupport false nm obj timeout caller st = Except.ok r := by
  refine ⟨cached false caller (fragmentKey nm qk) timeout
    (add_to_flush_list [fk] (cachedStorageKey (fragmentKey nm qk)) st), ?_⟩
  simp [cacheSupport, depObjKey, h1, h2, cachedStorageKey]

/-- Witness for the amended claim C5 at an object with no cache_key. -/
theorem query_key_with_flush_key_suffices_witness :
    ∃ r, cacheSupport false "t+1" (DepObj.mk (some "q") none (some "fl")) none (fun _ => "out")
      (CacheState.mk [] []) = Except.ok r :=
  query_key_with_flush_key_suffices "t+1" (DepObj.mk (some "q") none (some "fl")) none
    (fun _ => "out") (CacheState.mk [] []) "q" "fl" rfl rfl

/-- Counterexample for claim C4: two distinct call sites on the same line
of the same template, caching the same dependency, receive identical
fragment keys, so the map from call sites to cache keys is not injective. -/
theorem fragment_key_same_line_collision :
    fragmentKey (callSiteKeyName (CallSite.mk none "t" 3 0)) "k" =
      fragmentKey (callSiteKeyName (CallSite.mk none "t" 3 7)) "k" ∧
    CallSite.mk none "t" 3 0 ≠ CallSite.mk none "t" 3 7 :=
  ⟨rfl, by decide⟩

/-- Claim C4 amended: for a fixed dependency key, two call sites receive
the same fragment cache key exactly when they agree on the derived template
name and on the line number of the tag; call sites differing in template
name or line never collide, while two cache tags on the same line of the
same template do. -/
theorem fragment_key_injective_up_to_line (cs1 cs2 : CallSite) (dep : String) :
    fragmentKey (callSiteKeyName cs1) dep = fragmentKey (callSiteKeyName cs2) dep ↔
      (templateName cs1.filename cs1.name = templateName cs2.filename cs2.name ∧
        cs1.lineno = cs2.lineno) := by
  constructor
  · intro h
    unfold fragmentKey at h
    have h1 := str_append_right_cancel _ _ dep h
    have h2 := str_append_right_cancel _ _ ":" h1
    have h3 := str_append_left_cancel "fragment:" _ _ h2
    exact callSiteName_inj _ _ _ _ h3
  · intro hpair
    unfold fragmentKey callSiteKeyName callSiteName
    rw [hpair.1, hpair.2]

/-- Claim C7: rendering the same cache-tag block a second time with the
same dependency object and no intervening write returns the identical
output, and the second render is served from cache: its provenance is
from_cache and the producer is not run again. -/
theorem fragment_second_render_from_cache (nm : String) (obj : DepObj) (timeout : Option Nat)
    (caller : Unit → String) (st st1 : CacheState String) (objKey fk : String) (v : String)
    (p : Provenance)
    (h1 : depObjKey obj = Except.ok objKey) (h2 : obj.flush_key = some fk)
    (h3 : cacheSupport false nm obj timeout caller st = Except.ok (v, p, st1)) :
    ∃ st2, cacheSupport false nm obj timeout caller st1 =
      Except.ok (v, Provenance.from_cache, st2) := by
  have hkey : cacheSupport false nm obj timeout caller st =
      Except.ok (cached false caller (fragmentKey nm objKey) timeout
        (add_to_flush_list [fk] (cachedStorageKey (fragmentKey nm objKey)) st)) := by
    simp [cacheSupport, h1, h2, cachedStorageKey]
  rw [hkey] at h3
  have h4 : cached false caller (fragmentKey nm objKey) timeout
      (add_to_flush_list [fk] (cachedStorageKey (fragmentKey nm objKey)) st) = (v, p, st1) := by
    exact Except.ok.inj h3
  have h5 : cacheGet st1 (cachedStorageKey (fragmentKey nm objKey)) = some v :=
    cached_get_result caller (fragmentKey nm objKey) timeout _ v p st1 h4
  refine ⟨add_to_flush_list [fk] (cachedStorageKey (fragmentKey nm objKey)) st1, ?_⟩
  have hkey1 : cacheSupport false nm obj timeout caller st1 =
      Except.ok (cached false caller (fragmentKey nm objKey) timeout
        (add_to_flush_list [fk] (cachedStorageKey (fragmentKey nm objKey)) st1)) := by
    simp [cacheSupport, h1, h2, cachedStorageKey]
  rw [hkey1]
  have h6 : cacheGet (add_to_flush_list [fk] (cachedStorageKey (fragmentKey nm objKey)) st1)
      (cachedStorageKey (fragmentKey nm objKey)) = some v := by
    rw [cacheGet_add_to_flush_list]
    exact h5
  unfold cached
  rw [h6]
  simp

/-- Witness for claim C7: the state reached by a first render from the
empty cache serves the second render from cache with identical output. -/
theorem fragment_second_render_from_cache_witness :
    ∃ st2, cacheSupport false "t+1" (DepObj.mk (some "q") none (some "fl")) none (fun _ => "out")
        (CacheState.mk [("f:fragment:t+1:q", ("out", none))] [("fl", ["f:fragment:t+1:q"])]) =
      Except.ok ("out", Provenance.from_cache, st2) :=
  fragment_second_render_from_cache "t+1" (DepObj.mk (some "q") none (some "fl")) none
    (fun _ => "out") (CacheState.mk [] [])
    (CacheState.mk [("f:fragment:t+1:q", ("out", none))] [("fl", ["f:fragment:t+1:q"])])
    "q" "fl" "out" Provenance.computed rfl rfl rfl

/-- Claim C1: after a successful write of an entity, no cache entry whose
flush-list registration included that entity survives, and the next read of
the entity is freshly computed rather than served from cache. -/
theorem write_then_read_fresh {V : Type} (st : CacheState V) (edges : List (String × String))
    (E k : String) (fetch : Unit → V) (h : k ∈ getFlushList st (flush_key E)) :
    cacheGet (writeEntity edges E st) k = none ∧
    (readEntity false E fetch (writeEntity edges E st)).1 = fetch () ∧
    (readEntity false E fetch (writeEntity edges E st)).2.1 = Provenance.computed := by
  have hk : cacheGet (writeEntity edges E st) k = none := by
    show cacheGet (invalidate (invalidationTargets edges E) st) k = none
    exact invalidate_kills (invalidationTargets edges E) st E k
      (by simp [invalidationTargets]) h
  have hE : cacheGet (writeEntity edges E st) E = none := by
    show cacheGet (invalidate (relatedBoth edges E) (invalidateOne st E)) E = none
    exact invalidate_get_of_none (relatedBoth edges E) (invalidateOne st E) E
      (invalidateOne_get_self st E)
  refine ⟨hk, ?_, ?_⟩ <;> simp [readEntity, hE]

/-- Witness for claim C1 at a concrete state holding one cached query
registered against one entity. -/
theorem write_then_read_fresh_witness :
    cacheGet (writeEntity ([] : List (String × String)) "o:addon:1"
      (CacheState.mk [("qk1", ("old", none)), ("o:addon:1", ("a", none))]
        [("flush:o:addon:1", ["qk1"])])) "qk1" = none ∧
    (readEntity false "o:addon:1" (fun _ => "fresh")
      (writeEntity ([] : List (String × String)) "o:addon:1"
        (CacheState.mk [("qk1", ("old", none)), ("o:addon:1", ("a", none))]
          [("flush:o:addon:1", ["qk1"])]))).1 = (fun _ : Unit => "fresh") () ∧
    (readEntity false "o:addon:1" (fun _ => "fresh")
      (writeEntity ([] : List (String × String)) "o:addon:1"
        (CacheState.mk [("qk1", ("old", none)), ("o:addon:1", ("a", none))]
          [("flush:o:addon:1", ["qk1"])]))).2.1 = Provenance.computed :=
  write_then_read_fresh
    (CacheState.mk [("qk1", ("old", none)), ("o:addon:1", ("a", none))]
      [("flush:o:addon:1", ["qk1"])])
    [] "o:addon:1" "qk1" (fun _ => "fresh") (by decide)

/-- Claim C2: the invalidated set of a write equals the written entity
together with every entity related to it by a declared relation in either
direction, and every cached entry registered against any member of that set
is gone after the write. -/
theorem fk_cascade_both_directions {V : Type} (st : CacheState V)
    (edges : List (String × String)) (E e k : String)
    (h1 : e ∈ invalidationTargets edges E) (h2 : k ∈ getFlushList st (flush_key e)) :
    (e = E ∨ (E, e) ∈ edges ∨ (e, E) ∈ edges) ∧
    cacheGet (writeEntity edges E st) k = none ∧
    (∀ r, (r = E ∨ (E, r) ∈ edges ∨ (r, E) ∈ edges) → r ∈ invalidationTargets edges E) := by
  refine ⟨(mem_invalidationTargets edges E e).mp h1, ?_,
    fun r hr => (mem_invalidationTargets edges E r).mpr hr⟩
  show cacheGet (invalidate (invalidationTargets edges E) st) k = none
  exact invalidate_kills (invalidationTargets edges E) st e k h1 h2

/-- Witness for claim C2: writing a child entity drops the cached copy of
the parent that loaded it through a declared relation. -/
theorem fk_cascade_both_directions_witness :
    (("o:addon:1" : String) = "o:user:5" ∨
      (("o:user:5", "o:addon:1") ∈ [(("o:addon:1" : String), ("o:user:5" : String))]) ∨
      (("o:addon:1", "o:user:5") ∈ [(("o:addon:1" : String), ("o:user:5" : String))])) ∧
    cacheGet (writeEntity [(("o:addon:1" : String), ("o:user:5" : String))] "o:user:5"
      (CacheState.mk [("o:addon:1", (("a" : String), none))]
        [("flush:o:addon:1", ["o:addon:1"])])) "o:addon:1" = none ∧
    (∀ r, (r = "o:user:5" ∨
        (("o:user:5", r) ∈ [(("o:addon:1" : String), ("o:user:5" : String))]) ∨
        ((r, "o:user:5") ∈ [(("o:addon:1" : String), ("o:user:5" : String))])) →
      r ∈ invalidationTargets [(("o:addon:1" : String), ("o:user:5" : String))] "o:user:5") :=
  fk_cascade_both_directions
    (CacheState.mk [("o:addon:1", (("a" : String), none))] [("flush:o:addon:1", ["o:addon:1"])])
    [(("o:addon:1" : String), ("o:user:5" : String))] "o:user:5" "o:addon:1" "o:addon:1"
    (by decide) (by decide)

/-- Claim C8: with the configured count-cache timeout unset, every count
invocation recomputes its result and leaves the cache state untouched, on
every state, warm or cold, so the cache-aside executor is never invoked;
with a configured timeout, a count miss stores the computed count with
exactly that timeout. -/
theorem count_cache_timeout_behavior (qkey : String) (compute : Unit → Nat)
    (st : CacheState Nat) (t : Nat) :
    countQuery false none qkey compute st = (compute (), Provenance.computed, st) ∧
    (cacheGet st (cachedStorageKey qkey) = none →
      cacheGetEntry ((countQuery false (some t) qkey compute st).2.2) (cachedStorageKey qkey)
        = some (compute (), some t)) := by
  refine ⟨rfl, fun h => ?_⟩
  unfold countQuery cached
  rw [h]
  simp [cacheGetEntry_cacheSet_self]

/-- Witness for claim C8: the unset-timeout bypass at a warm cache already
holding a different count under the storage key, and the store with the
exact timeout of sixty at a miss from the empty cache. -/
theorem count_cache_timeout_behavior_witness :
    countQuery false none "cnt" (fun _ => 2)
        (CacheState.mk [("f:cnt", (7, some 60))] []) =
      ((fun _ : Unit => 2) (), Provenance.computed,
        CacheState.mk [("f:cnt", (7, some 60))] []) ∧
    cacheGetEntry ((countQuery false (some 60) "cnt" (fun _ => 2)
      (CacheState.mk [] [])).2.2) (cachedStorageKey "cnt") = some ((fun _ : Unit => 2) (), some 60) :=
  ⟨(count_cache_timeout_behavior "cnt" (fun _ => 2)
      (CacheState.mk [("f:cnt", (7, some 60))] []) 60).1,
    (count_cache_timeout_behavior "cnt" (fun _ => 2) (CacheState.mk [] []) 60).2 rfl⟩

end CacheMachine
